import Mathlib

set_option maxHeartbeats 1000000

namespace Anode

/-! # Event-sourced execution coordination core of Anode

A shallow embedding of the coordination core of the Anode notebook system:
the event log, the derived tables (cells, outputs, executionQueue,
kernelSessions, notebook), the materializer that folds events into tables,
and the execution scheduler, together with the client components
(`Cell.tsx`, `AiCell`, `RichOutput.tsx`, `AnywidgetModel`) that commit and
render events.

The materializer and scheduler live in `shared/schema.js`, which is not part
of the checked-in sources; those definitions are modelled from the spec
(sections 3, 4.2, 4.3, 4.4, 4.5) together with the event payloads visible in
`packages/pyodide-runtime-agent/test/runtime-agent.test.ts`.  The client-side
definitions are translated directly from the TypeScript sources. -/

/-- Cell kinds, from the spec data model (section 3) and the client cell
components. -/
inductive CellType where
  | code
  | markdown
  | sql
  | ai
deriving DecidableEq, Repr

/-- Execution state of a cell, from the spec data model (section 3). -/
inductive ExecState where
  | idle
  | queued
  | running
  | completed
  | error
deriving DecidableEq, Repr

/-- Status of an execution-queue entry, from the spec data model
(section 3). -/
inductive QueueStatus where
  | pending
  | assigned
  | running
  | completed
  | failed
  | cancelled
deriving DecidableEq, Repr

/-- Forward ordering of queue statuses.  The spec (section 3) requires the
status transition graph `pending → assigned → running → terminal` to be
monotonic forward only; the rank makes that order explicit, with the three
terminal statuses sharing the top rank. -/
def statusRank : QueueStatus → Nat
  | .pending => 0
  | .assigned => 1
  | .running => 2
  | .completed => 3
  | .failed => 3
  | .cancelled => 3

/-- A queue status is terminal when it is `completed`, `failed` or
`cancelled`. -/
def isTerminal (st : QueueStatus) : Bool :=
  statusRank st == 3

/-- Kernel session status, from the spec data model (section 3). -/
inductive SessionStatus where
  | starting
  | ready
  | busy
  | terminated
deriving DecidableEq, Repr

/-- Status carried by a heartbeat.  The session state machine of the spec
(section 4.4) is `starting → ready ⇄ busy → terminated`, so a heartbeat
reports either `ready` or `busy` (the test suite only sends `busy`). -/
inductive HeartbeatStatus where
  | ready
  | busy
deriving DecidableEq, Repr

/-- Embed a heartbeat status into the session status space. -/
def HeartbeatStatus.toSessionStatus : HeartbeatStatus → SessionStatus
  | .ready => .ready
  | .busy => .busy

/-- Output kinds, from the spec data model (section 3). -/
inductive OutputType where
  | stream
  | execute_result
  | display_data
  | error
deriving DecidableEq, Repr

/-- A JavaScript value as far as the rendering and payload logic
distinguishes them: `null` versus any concrete value.  (An absent key is
modelled by `Option` at the use sites, mirroring `undefined`.) -/
inductive JsVal where
  | null
  | bool (b : Bool)
  | num (n : Int)
  | str (s : String)
deriving DecidableEq, Repr

/-- Payload of an `Output` row: either a Jupyter error bundle
`{ename, evalue, traceback}` (as committed by the `executeCell` error handler
in `Cell.tsx` and the `executeAiPrompt` error handler in `AiCell`), or a
media-typed map, or a bare stream string (as in the test suite). -/
inductive OutputPayload where
  | errorData (ename evalue : String) (traceback : List String)
  | media (m : List (String × JsVal))
  | text (s : String)
deriving DecidableEq, Repr

/-- `true` exactly when an output payload is an error bundle carrying the
`ename`, `evalue` and `traceback` fields. -/
def hasErrorFields : OutputPayload → Bool
  | .errorData _ _ _ => true
  | _ => false

/-- Kernel capabilities, from the `kernelSessionStarted` payload in the test
suite and the spec data model. -/
structure Capabilities where
  canExecuteCode : Bool
  canExecuteSql : Bool
  canExecuteAi : Bool
deriving DecidableEq, Repr

/-- Modelled from the spec: the closed sum of coordination events
(section 4.2 table), with the payload fields taken from the commits in
`runtime-agent.test.ts`, `Cell.tsx` and `AiCell`. -/
inductive Event where
  | cellCreated (id : String) (cellType : CellType) (position : Int)
      (createdBy : String)
  | cellSourceChanged (id source modifiedBy : String)
  | cellTypeChanged (id : String) (cellType : CellType)
  | cellSourceVisibilityToggled (id : String) (sourceVisible : Bool)
  | cellOutputVisibilityToggled (id : String) (outputVisible : Bool)
  | cellAiContextVisibilityToggled (id : String) (aiContextVisible : Bool)
  | executionRequested (queueId cellId : String) (executionCount : Nat)
      (requestedBy : String) (priority : Int)
  | executionAssigned (queueId kernelSessionId : String)
  | executionStarted (queueId cellId kernelSessionId : String)
      (startedAt : Nat)
  | executionCompleted (queueId cellId : String) (status : String)
      (completedAt : Nat) (executionDurationMs : Nat)
  | executionCancelled (queueId cellId reason : String)
  | kernelSessionStarted (sessionId kernelId kernelType : String)
      (capabilities : Capabilities)
  | kernelSessionHeartbeat (sessionId : String) (status : HeartbeatStatus)
      (timestamp : Nat)
  | kernelSessionTerminated (sessionId reason : String)
  | cellOutputAdded (id cellId : String) (outputType : OutputType)
      (data : OutputPayload) (position : Int)
  | cellOutputsCleared (cellId clearedBy : String)
deriving DecidableEq, Repr

/-- A row of the `cells` table, from the spec data model (section 3) and the
fields read by `Cell.tsx`. -/
structure Cell where
  id : String
  cellType : CellType
  source : String
  position : Int
  executionState : ExecState
  executionCount : Nat
  sourceVisible : Bool
  outputVisible : Bool
  aiContextVisible : Bool
  lastExecutionDurationMs : Option Nat
  createdBy : String
deriving DecidableEq, Repr

/-- A row of the `executionQueue` table, from the spec data model
(section 3). -/
structure QueueEntry where
  queueId : String
  cellId : String
  executionCount : Nat
  requestedBy : String
  priority : Int
  status : QueueStatus
  assignedKernelSession : Option String
deriving DecidableEq, Repr

/-- A row of the `kernelSessions` table, from the spec data model
(section 3) and the fields asserted in the test suite. -/
structure KernelSession where
  sessionId : String
  kernelId : String
  kernelType : String
  capabilities : Capabilities
  status : SessionStatus
  isActive : Bool
  lastHeartbeatAt : Option Nat
deriving DecidableEq, Repr

/-- A row of the `outputs` table, from the spec data model (section 3). -/
structure Output where
  id : String
  cellId : String
  outputType : OutputType
  data : OutputPayload
  position : Int
deriving DecidableEq, Repr

/-- Notebook metadata row.  The spec lists `notebook` among the derived
tables but neither the spec's event table nor the visible sources commit any
event that mutates it, so it stays at its initial contents under replay. -/
structure NotebookMeta where
  id : String
  title : String
deriving DecidableEq, Repr

/-- The derived tables, entirely rebuildable by replaying the event log from
empty state (spec section 2). -/
structure State where
  cells : List Cell
  outputs : List Output
  executionQueue : List QueueEntry
  kernelSessions : List KernelSession
  notebook : List NotebookMeta
deriving DecidableEq, Repr

/-- The empty derived state that replay starts from. -/
def emptyState : State :=
  { cells := [], outputs := [], executionQueue := [], kernelSessions := [],
    notebook := [] }

/-- Apply `f` to exactly the elements satisfying `p`, in place.  This is the
shape of every row update a materializer performs: rows are located by the
primary key supplied in the event payload. -/
def updateWhere (p : α → Bool) (f : α → α) (l : List α) : List α :=
  l.map fun a => if p a then f a else a

/-- Update the `executionState` of the cell with the given id. -/
def setCellExecState (cellId : String) (st : ExecState) (cs : List Cell) :
    List Cell :=
  updateWhere (fun c => c.id == cellId) (fun c => { c with executionState := st }) cs

/-- Modelled from the spec: the materializer engine of `shared/schema.js`
(not among the checked-in sources), following the event-to-mutation table of
section 4.2, the status-monotonicity rule of section 3 (a queue-entry status
update is applied only when it moves the entry strictly forward in
`statusRank`, and an `ExecutionAssigned` event is honored only on a
`pending` entry, section 4.3), and the absorbing-`terminated` session rule
of section 4.4 (a heartbeat is ignored on a terminated session).  Payload
shapes follow `runtime-agent.test.ts`. -/
def applyEvent (s : State) : Event → State
  | .cellCreated id ct pos by_ =>
      let row : Cell :=
        { id := id, cellType := ct, source := "", position := pos,
          executionState := .idle, executionCount := 0,
          sourceVisible := true, outputVisible := true,
          aiContextVisible := true, lastExecutionDurationMs := none,
          createdBy := by_ }
      { s with cells := s.cells ++ [row] }
  | .cellSourceChanged id src _ =>
      let cs := updateWhere (fun c => c.id == id)
        (fun c => { c with source := src }) s.cells
      { s with cells := cs }
  | .cellTypeChanged id ct =>
      let cs := updateWhere (fun c => c.id == id)
        (fun c => { c with cellType := ct }) s.cells
      { s with cells := cs }
  | .cellSourceVisibilityToggled id v =>
      let cs := updateWhere (fun c => c.id == id)
        (fun c => { c with sourceVisible := v }) s.cells
      { s with cells := cs }
  | .cellOutputVisibilityToggled id v =>
      let cs := updateWhere (fun c => c.id == id)
        (fun c => { c with outputVisible := v }) s.cells
      { s with cells := cs }
  | .cellAiContextVisibilityToggled id v =>
      let cs := updateWhere (fun c => c.id == id)
        (fun c => { c with aiContextVisible := v }) s.cells
      { s with cells := cs }
  | .executionRequested q c n u p =>
      let row : QueueEntry :=
        { queueId := q, cellId := c, executionCount := n,
          requestedBy := u, priority := p, status := .pending,
          assignedKernelSession := none }
      { s with executionQueue := s.executionQueue ++ [row],
               cells := setCellExecState c .queued s.cells }
  | .executionAssigned q k =>
      let eq := updateWhere (fun en => en.queueId == q && en.status == QueueStatus.pending)
        (fun en => { en with status := .assigned,
                             assignedKernelSession := some k })
        s.executionQueue
      { s with executionQueue := eq }
  | .executionStarted q c _ _ =>
      let eq := updateWhere
        (fun en => en.queueId == q && decide (statusRank en.status < 2))
        (fun en => { en with status := .running }) s.executionQueue
      { s with executionQueue := eq,
               cells := setCellExecState c .running s.cells }
  | .executionCompleted q c st _ d =>
      let eq := updateWhere
        (fun en => en.queueId == q && decide (statusRank en.status < 3))
        (fun en => { en with status :=
            if st == "success" then .completed else .failed })
        s.executionQueue
      let cs := updateWhere (fun cl => cl.id == c)
        (fun cl => { cl with
          executionState := if st == "success" then .completed else .error,
          lastExecutionDurationMs := some d }) s.cells
      { s with executionQueue := eq, cells := cs }
  | .executionCancelled q c _ =>
      let eq := updateWhere
        (fun en => en.queueId == q && decide (statusRank en.status < 3))
        (fun en => { en with status := .cancelled }) s.executionQueue
      { s with executionQueue := eq,
               cells := setCellExecState c .idle s.cells }
  | .kernelSessionStarted sid kid kt caps =>
      let row : KernelSession :=
        { sessionId := sid, kernelId := kid, kernelType := kt,
          capabilities := caps, status := .ready, isActive := true,
          lastHeartbeatAt := none }
      { s with kernelSessions := s.kernelSessions ++ [row] }
  | .kernelSessionHeartbeat sid st ts =>
      let ks := updateWhere
        (fun k => k.sessionId == sid && !(k.status == SessionStatus.terminated))
        (fun k => { k with status := st.toSessionStatus,
                           lastHeartbeatAt := some ts })
        s.kernelSessions
      { s with kernelSessions := ks }
  | .kernelSessionTerminated sid _ =>
      let ks := updateWhere (fun k => k.sessionId == sid)
        (fun k => { k with status := .terminated, isActive := false })
        s.kernelSessions
      { s with kernelSessions := ks }
  | .cellOutputAdded id c ot dat pos =>
      let row : Output :=
        { id := id, cellId := c, outputType := ot, data := dat,
          position := pos }
      { s with outputs := s.outputs ++ [row] }
  | .cellOutputsCleared c _ =>
      { s with outputs := s.outputs.filter (fun o => !(o.cellId == c)) }

/-- Fold a list of events into a state, in log order. -/
def applyEvents (s : State) (es : List Event) : State :=
  es.foldl applyEvent s

/-- Rebuild all derived tables from empty state by replaying an event log. -/
def replay (es : List Event) : State :=
  applyEvents emptyState es

/-- Incremental application agrees with fresh replay: folding a suffix onto
an already materialized state gives the same tables as replaying the
concatenated log from empty state. -/
theorem applyEvents_append (s : State) (l1 l2 : List Event) :
    applyEvents s (l1 ++ l2) = applyEvents (applyEvents s l1) l2 := by
  simp [applyEvents, List.foldl_append]

/-- C1: the derived tables are a deterministic pure function of the event
log: `replay` is a function of the list of events alone, and applying
further events incrementally to a materialized state yields exactly the
tables obtained by a fresh replay of the whole log from the empty state, for
every split of the log. -/
theorem C1_replay_deterministic (l1 l2 : List Event) :
    applyEvents (applyEvents emptyState l1) l2 = replay (l1 ++ l2) := by
  simp [replay, applyEvents_append]

/-- `updateWhere` acts index-wise. -/
theorem updateWhere_getElem? (p : α → Bool) (f : α → α) (l : List α) (i : Nat) :
    (updateWhere p f l)[i]? = Option.map (fun a => if p a then f a else a) l[i]? := by
  simp [updateWhere]

/-- `updateWhere` is the identity when no row matches. -/
theorem updateWhere_eq_self {p : α → Bool} {f : α → α} :
    ∀ {l : List α}, (∀ a ∈ l, p a = false) → updateWhere p f l = l
  | [], _ => rfl
  | a :: t, h => by
      have ha : p a = false := h a (by simp)
      have ht : updateWhere p f t = t :=
        updateWhere_eq_self (fun x hx => h x (by simp [hx]))
      simpa [updateWhere, ha] using ht

/-- C3: queue-entry status transitions are monotonic forward only.  A queue
entry whose status is terminal (`completed`, `failed` or `cancelled`) is
left untouched, field for field and in place, by every subsequently applied
event: no event returns it to `pending`, `assigned` or `running`. -/
theorem C3_terminal_status_monotonic (s : State) (e : Event) (i : Nat)
    (en : QueueEntry) (hi : s.executionQueue[i]? = some en)
    (ht : isTerminal en.status = true) :
    (applyEvent s e).executionQueue[i]? = some en := by
  have hlt : i < s.executionQueue.length :=
    (List.getElem?_eq_some_iff.mp hi).1
  have hrank : statusRank en.status = 3 := by
    simpa [isTerminal] using ht
  have hpend : en.status ≠ QueueStatus.pending := by
    intro h
    rw [h] at hrank
    simp [statusRank] at hrank
  cases e <;>
    simp [applyEvent, updateWhere_getElem?, hi, hrank, hpend,
      List.getElem?_append_left hlt]

/-- A log fragment mirroring the `should process execution queue in correct
order` test: one kernel session, one cell, one execution taken all the way
to `completed`. -/
def c3Log : List Event :=
  [.kernelSessionStarted "s-1" "k-1" "python3"
      { canExecuteCode := true, canExecuteSql := false, canExecuteAi := false },
   .cellCreated "test-cell-123" .code 0 "user-123",
   .executionRequested "test-queue-456" "test-cell-123" 1 "user-123" 1,
   .executionAssigned "test-queue-456" "s-1",
   .executionStarted "test-queue-456" "test-cell-123" "s-1" 0,
   .executionCompleted "test-queue-456" "test-cell-123" "success" 0 100]

/-- The completed queue entry produced by `c3Log`. -/
def c3Entry : QueueEntry :=
  { queueId := "test-queue-456", cellId := "test-cell-123",
    executionCount := 1, requestedBy := "user-123", priority := 1,
    status := .completed, assignedKernelSession := some "s-1" }

theorem C3_terminal_status_monotonic_witness :
    (replay c3Log).executionQueue[0]? = some c3Entry ∧
    isTerminal c3Entry.status = true ∧
    (applyEvent (replay c3Log)
        (.executionAssigned "test-queue-456" "s-2")).executionQueue[0]? =
      some c3Entry :=
  ⟨by decide, by decide,
    C3_terminal_status_monotonic (replay c3Log)
      (.executionAssigned "test-queue-456" "s-2") 0 c3Entry
      (by decide) (by decide)⟩

/-- Entries for `queueId` `q` are assigned to session `k1` and can no longer
be claimed: the first-assignment invariant of spec section 4.3. -/
def assignedInv (q k1 : String) (s : State) : Prop :=
  ∀ en ∈ s.executionQueue, en.queueId = q →
    en.assignedKernelSession = some k1 ∧ en.status ≠ QueueStatus.pending

/-- The first `ExecutionAssigned` event reaching pending entries for `q`
establishes the assignment invariant. -/
theorem assignedInv_init (q k1 : String) (s : State)
    (hq : ∀ en ∈ s.executionQueue, en.queueId = q →
      en.status = QueueStatus.pending) :
    assignedInv q k1 (applyEvent s (.executionAssigned q k1)) := by
  intro en' hmem hqe
  simp only [applyEvent, updateWhere, List.mem_map] at hmem
  obtain ⟨en, hen, rfl⟩ := hmem
  by_cases hc : (en.queueId == q && en.status == QueueStatus.pending) = true
  · simp [hc]
  · simp only [if_neg hc] at hqe ⊢
    have hpend := hq en hen hqe
    simp [hqe, hpend] at hc

/-- Any later event other than a fresh `ExecutionRequested` for the same
`queueId` preserves the assignment invariant: no materializer moves an
entry back to `pending` or rewrites `assignedKernelSession`. -/
theorem assignedInv_step (q k1 : String) (s : State) (e : Event)
    (he : ∀ c n u p, e ≠ .executionRequested q c n u p)
    (h : assignedInv q k1 s) : assignedInv q k1 (applyEvent s e) := by
  intro en' hmem hqe
  cases e with
  | executionRequested q' c n u p =>
      simp only [applyEvent, List.mem_append, List.mem_singleton] at hmem
      rcases hmem with hmem | rfl
      · exact h en' hmem hqe
      · exfalso
        apply he c n u p
        simp only at hqe
        rw [hqe]
  | executionAssigned q2 k =>
      simp only [applyEvent, updateWhere, List.mem_map] at hmem
      obtain ⟨en, hen, rfl⟩ := hmem
      by_cases hc : (en.queueId == q2 && en.status == QueueStatus.pending) = true
      · simp only [if_pos hc] at hqe ⊢
        have := h en hen hqe
        simp only [Bool.and_eq_true, beq_iff_eq] at hc
        exact absurd hc.2 this.2
      · simp only [if_neg hc] at hqe ⊢
        exact h en hen hqe
  | executionStarted q2 c k ts =>
      simp only [applyEvent, updateWhere, List.mem_map] at hmem
      obtain ⟨en, hen, rfl⟩ := hmem
      by_cases hc : (en.queueId == q2 && decide (statusRank en.status < 2)) = true
      · simp only [if_pos hc] at hqe ⊢
        have := h en hen hqe
        exact ⟨this.1, by simp⟩
      · simp only [if_neg hc] at hqe ⊢
        exact h en hen hqe
  | executionCompleted q2 c st ca d =>
      simp only [applyEvent, updateWhere, List.mem_map] at hmem
      obtain ⟨en, hen, rfl⟩ := hmem
      by_cases hc : (en.queueId == q2 && decide (statusRank en.status < 3)) = true
      · simp only [if_pos hc] at hqe ⊢
        have := h en hen hqe
        refine ⟨this.1, ?_⟩
        by_cases hs : (st == "success") = true <;> simp [hs]
      · simp only [if_neg hc] at hqe ⊢
        exact h en hen hqe
  | executionCancelled q2 c r =>
      simp only [applyEvent, updateWhere, List.mem_map] at hmem
      obtain ⟨en, hen, rfl⟩ := hmem
      by_cases hc : (en.queueId == q2 && decide (statusRank en.status < 3)) = true
      · simp only [if_pos hc] at hqe ⊢
        have := h en hen hqe
        exact ⟨this.1, by simp⟩
      · simp only [if_neg hc] at hqe ⊢
        exact h en hen hqe
  | cellCreated id ct pos by_ => exact h en' (by simpa [applyEvent] using hmem) hqe
  | cellSourceChanged id src m => exact h en' (by simpa [applyEvent] using hmem) hqe
  | cellTypeChanged id ct => exact h en' (by simpa [applyEvent] using hmem) hqe
  | cellSourceVisibilityToggled id v =>
      exact h en' (by simpa [applyEvent] using hmem) hqe
  | cellOutputVisibilityToggled id v =>
      exact h en' (by simpa [applyEvent] using hmem) hqe
  | cellAiContextVisibilityToggled id v =>
      exact h en' (by simpa [applyEvent] using hmem) hqe
  | kernelSessionStarted sid kid kt caps =>
      exact h en' (by simpa [applyEvent] using hmem) hqe
  | kernelSessionHeartbeat sid st ts =>
      exact h en' (by simpa [applyEvent] using hmem) hqe
  | kernelSessionTerminated sid r =>
      exact h en' (by simpa [applyEvent] using hmem) hqe
  | cellOutputAdded id c ot dat pos =>
      exact h en' (by simpa [applyEvent] using hmem) hqe
  | cellOutputsCleared c by_ => exact h en' (by simpa [applyEvent] using hmem) hqe

/-- The assignment invariant survives any event suffix that does not
re-request the same `queueId`. -/
theorem assignedInv_steps (q k1 : String) (s : State) (mid : List Event)
    (hmid : ∀ e ∈ mid, ∀ c n u p, e ≠ .executionRequested q c n u p)
    (h : assignedInv q k1 s) : assignedInv q k1 (applyEvents s mid) := by
  induction mid generalizing s with
  | nil => exact h
  | cons e t ih =>
      exact ih (applyEvent s e) (fun e' he' => hmid e' (by simp [he']))
        (assignedInv_step q k1 s e (hmid e (by simp)) h)

/-- Every materializer preserves the existence of an entry for `q`. -/
theorem exists_q_applyEvent (q : String) (s : State) (e : Event)
    (h : ∃ en ∈ s.executionQueue, en.queueId = q) :
    ∃ en ∈ (applyEvent s e).executionQueue, en.queueId = q := by
  obtain ⟨en, hen, hq⟩ := h
  cases e with
  | executionRequested q' c n u p =>
      exact ⟨en, by simp [applyEvent, hen], hq⟩
  | executionAssigned q2 k =>
      refine ⟨_, List.mem_map_of_mem _ hen, ?_⟩
      split <;> simp [hq]
  | executionStarted q2 c k ts =>
      refine ⟨_, List.mem_map_of_mem _ hen, ?_⟩
      split <;> simp [hq]
  | executionCompleted q2 c st ca d =>
      refine ⟨_, List.mem_map_of_mem _ hen, ?_⟩
      split <;> simp [hq]
  | executionCancelled q2 c r =>
      refine ⟨_, List.mem_map_of_mem _ hen, ?_⟩
      split <;> simp [hq]
  | cellCreated id ct pos by_ => exact ⟨en, by simpa [applyEvent] using hen, hq⟩
  | cellSourceChanged id src m => exact ⟨en, by simpa [applyEvent] using hen, hq⟩
  | cellTypeChanged id ct => exact ⟨en, by simpa [applyEvent] using hen, hq⟩
  | cellSourceVisibilityToggled id v =>
      exact ⟨en, by simpa [applyEvent] using hen, hq⟩
  | cellOutputVisibilityToggled id v =>
      exact ⟨en, by simpa [applyEvent] using hen, hq⟩
  | cellAiContextVisibilityToggled id v =>
      exact ⟨en, by simpa [applyEvent] using hen, hq⟩
  | kernelSessionStarted sid kid kt caps =>
      exact ⟨en, by simpa [applyEvent] using hen, hq⟩
  | kernelSessionHeartbeat sid st ts =>
      exact ⟨en, by simpa [applyEvent] using hen, hq⟩
  | kernelSessionTerminated sid r =>
      exact ⟨en, by simpa [applyEvent] using hen, hq⟩
  | cellOutputAdded id c ot dat pos =>
      exact ⟨en, by simpa [applyEvent] using hen, hq⟩
  | cellOutputsCleared c by_ => exact ⟨en, by simpa [applyEvent] using hen, hq⟩

/-- Existence of an entry for `q` survives a whole event suffix. -/
theorem exists_q_applyEvents (q : String) (s : State) (es : List Event)
    (h : ∃ en ∈ s.executionQueue, en.queueId = q) :
    ∃ en ∈ (applyEvents s es).executionQueue, en.queueId = q := by
  induction es generalizing s with
  | nil => exact h
  | cons e t ih => exact ih (applyEvent s e) (exists_q_applyEvent q s e h)

/-- A second `ExecutionAssigned` on a `queueId` none of whose entries is
still `pending` is a complete no-op on the state. -/
theorem assigned_noop (q k2 : String) (s : State)
    (h : ∀ en ∈ s.executionQueue, en.queueId = q →
      en.status ≠ QueueStatus.pending) :
    applyEvent s (.executionAssigned q k2) = s := by
  have hall : ∀ en ∈ s.executionQueue,
      (en.queueId == q && en.status == QueueStatus.pending) = false := by
    intro en hen
    by_cases hq : en.queueId = q
    · simp [hq, h en hen hq]
    · simp [hq]
  simp only [applyEvent]
  rw [updateWhere_eq_self hall]

/-- C2: only the first `ExecutionAssigned` event applied to a pending queue
entry takes effect.  Starting from a state whose entries for `queueId` `q`
are all pending, after the first assignment to `k1` and any further events
(none of which re-requests `q`), every entry for `q` carries
`assignedKernelSession = some k1` and is no longer pending, and a later
`ExecutionAssigned` for `q` (by `k2`) leaves the whole state unchanged. -/
theorem C2_single_assignment (s : State) (q k1 k2 : String) (mid : List Event)
    (hpend : ∀ en ∈ s.executionQueue, en.queueId = q →
      en.status = QueueStatus.pending)
    (hex : ∃ en ∈ s.executionQueue, en.queueId = q)
    (hmid : ∀ e ∈ mid, ∀ c n u p, e ≠ Event.executionRequested q c n u p) :
    (∃ en ∈ (applyEvents (applyEvent s (.executionAssigned q k1))
        mid).executionQueue, en.queueId = q) ∧
    (∀ en ∈ (applyEvents (applyEvent s (.executionAssigned q k1))
        mid).executionQueue, en.queueId = q →
          en.assignedKernelSession = some k1 ∧
          en.status ≠ QueueStatus.pending) ∧
    applyEvent (applyEvents (applyEvent s (.executionAssigned q k1)) mid)
        (.executionAssigned q k2) =
      applyEvents (applyEvent s (.executionAssigned q k1)) mid := by
  have hinv : assignedInv q k1
      (applyEvents (applyEvent s (.executionAssigned q k1)) mid) :=
    assignedInv_steps q k1 _ mid hmid (assignedInv_init q k1 s hpend)
  refine ⟨?_, hinv, ?_⟩
  · exact exists_q_applyEvents q _ mid
      (exists_q_applyEvent q s (.executionAssigned q k1) hex)
  · exact assigned_noop q k2 _ (fun en hen hq => (hinv en hen hq).2)

/-- A log fragment mirroring the `should handle concurrent executions`
test: one kernel session, one cell, one pending execution request. -/
def c2Log : List Event :=
  [.kernelSessionStarted "session-1" "kernel-1" "python3"
      { canExecuteCode := true, canExecuteSql := false, canExecuteAi := false },
   .cellCreated "cell-0" .code 0 "user-123",
   .executionRequested "queue-0" "cell-0" 1 "user-123" 1]

theorem C2_single_assignment_witness :
    (∀ en ∈ (replay c2Log).executionQueue, en.queueId = "queue-0" →
        en.status = QueueStatus.pending) ∧
    (∃ en ∈ (replay c2Log).executionQueue, en.queueId = "queue-0") ∧
    ((∃ en ∈ (applyEvents (applyEvent (replay c2Log)
        (.executionAssigned "queue-0" "session-1")) []).executionQueue,
        en.queueId = "queue-0") ∧
     (∀ en ∈ (applyEvents (applyEvent (replay c2Log)
        (.executionAssigned "queue-0" "session-1")) []).executionQueue,
        en.queueId = "queue-0" →
          en.assignedKernelSession = some "session-1" ∧
          en.status ≠ QueueStatus.pending) ∧
     applyEvent (applyEvents (applyEvent (replay c2Log)
        (.executionAssigned "queue-0" "session-1")) [])
        (.executionAssigned "queue-0" "session-2") =
      applyEvents (applyEvent (replay c2Log)
        (.executionAssigned "queue-0" "session-1")) []) :=
  ⟨by decide, by decide,
    C2_single_assignment (replay c2Log) "queue-0" "session-1" "session-2" []
      (by decide) (by decide) (by simp)⟩

/-- The queue entry inserted by `ExecutionRequested`, per the spec
mutation table (section 4.2). -/
def requestedEntry (q c : String) (n : Nat) (u : String) (p : Int) :
    QueueEntry :=
  { queueId := q, cellId := c, executionCount := n, requestedBy := u,
    priority := p, status := .pending, assignedKernelSession := none }

/-- C5: an `ExecutionRequested` event inserts exactly one new pending queue
entry for its `queueId` (when that `queueId` is fresh, as queue ids are
unique), sets the referenced cell's `executionState` to `queued`, and leaves
every other row of every derived table unchanged, in place. -/
theorem C5_execution_requested (s : State) (q c : String) (n : Nat)
    (u : String) (p : Int)
    (hfresh : ∀ en ∈ s.executionQueue, en.queueId ≠ q) :
    ((applyEvent s (.executionRequested q c n u p)).executionQueue.filter
        (fun en => en.queueId == q) = [requestedEntry q c n u p]) ∧
    (applyEvent s (.executionRequested q c n u p)).outputs = s.outputs ∧
    (applyEvent s (.executionRequested q c n u p)).kernelSessions =
      s.kernelSessions ∧
    (applyEvent s (.executionRequested q c n u p)).notebook = s.notebook ∧
    (∀ i : Nat, i < s.executionQueue.length →
      (applyEvent s (.executionRequested q c n u p)).executionQueue[i]? =
        s.executionQueue[i]?) ∧
    (∀ (i : Nat) (cl : Cell), s.cells[i]? = some cl → cl.id ≠ c →
      (applyEvent s (.executionRequested q c n u p)).cells[i]? = some cl) ∧
    (∀ (i : Nat) (cl : Cell), s.cells[i]? = some cl → cl.id = c →
      (applyEvent s (.executionRequested q c n u p)).cells[i]? =
        some { cl with executionState := .queued }) := by
  refine ⟨?_, rfl, rfl, rfl, ?_, ?_, ?_⟩
  · have hnil : s.executionQueue.filter (fun en => en.queueId == q) = [] := by
      rw [List.filter_eq_nil_iff]
      intro en hen
      simp [hfresh en hen]
    simp [applyEvent, requestedEntry, hnil]
  · intro i hi
    simp [applyEvent, List.getElem?_append_left hi]
  · intro i cl hcl hne
    have hi : i < s.cells.length := (List.getElem?_eq_some_iff.mp hcl).1
    simp [applyEvent, setCellExecState, updateWhere_getElem?, hcl, hne]
  · intro i cl hcl heq
    have hi : i < s.cells.length := (List.getElem?_eq_some_iff.mp hcl).1
    simp [applyEvent, setCellExecState, updateWhere_getElem?, hcl, heq]

/-- A log fragment with one session and one idle cell, as in the
`executionRequested` commits of the test suite and `Cell.tsx`. -/
def c5Log : List Event :=
  [.kernelSessionStarted "s-1" "k-1" "python3"
      { canExecuteCode := true, canExecuteSql := false, canExecuteAi := false },
   .cellCreated "cell-1" .code 0 "user-123",
   .cellCreated "cell-2" .code 1 "user-123"]

theorem C5_execution_requested_witness :
    (∀ en ∈ (replay c5Log).executionQueue, en.queueId ≠ "q-1") ∧
    ((applyEvent (replay c5Log)
        (.executionRequested "q-1" "cell-1" 1 "user-123" 1)).executionQueue.filter
          (fun en => en.queueId == "q-1") =
        [requestedEntry "q-1" "cell-1" 1 "user-123" 1]) ∧
    (applyEvent (replay c5Log)
        (.executionRequested "q-1" "cell-1" 1 "user-123" 1)).outputs =
      (replay c5Log).outputs ∧
    (applyEvent (replay c5Log)
        (.executionRequested "q-1" "cell-1" 1 "user-123" 1)).kernelSessions =
      (replay c5Log).kernelSessions ∧
    (applyEvent (replay c5Log)
        (.executionRequested "q-1" "cell-1" 1 "user-123" 1)).notebook =
      (replay c5Log).notebook ∧
    (∀ i : Nat, i < (replay c5Log).executionQueue.length →
      (applyEvent (replay c5Log)
        (.executionRequested "q-1" "cell-1" 1 "user-123" 1)).executionQueue[i]? =
        (replay c5Log).executionQueue[i]?) ∧
    (∀ (i : Nat) (cl : Cell), (replay c5Log).cells[i]? = some cl →
      cl.id ≠ "cell-1" →
      (applyEvent (replay c5Log)
        (.executionRequested "q-1" "cell-1" 1 "user-123" 1)).cells[i]? =
        some cl) ∧
    (∀ (i : Nat) (cl : Cell), (replay c5Log).cells[i]? = some cl →
      cl.id = "cell-1" →
      (applyEvent (replay c5Log)
        (.executionRequested "q-1" "cell-1" 1 "user-123" 1)).cells[i]? =
        some { cl with executionState := .queued }) :=
  ⟨by decide,
    C5_execution_requested (replay c5Log) "q-1" "cell-1" 1 "user-123" 1
      (by decide)⟩

/-- The session row inserted by `KernelSessionStarted`, per the spec
mutation table (section 4.2) and the assertions of the
`should register kernel session on startup` test. -/
def startedSession (sid kid kt : String) (caps : Capabilities) :
    KernelSession :=
  { sessionId := sid, kernelId := kid, kernelType := kt,
    capabilities := caps, status := .ready, isActive := true,
    lastHeartbeatAt := none }

/-- C6: `KernelSessionStarted` inserts a session row with status `ready` and
`isActive = true`; `KernelSessionTerminated` sets the session's status to
`terminated` and `isActive` to `false`; and `terminated` is absorbing — a
terminated, inactive session row is left untouched, field for field and in
place, by every later event (in particular by heartbeats). -/
theorem C6_session_lifecycle (s : State) :
    (∀ sid kid kt caps,
      (applyEvent s (.kernelSessionStarted sid kid kt caps)).kernelSessions =
        s.kernelSessions ++ [startedSession sid kid kt caps] ∧
      (startedSession sid kid kt caps).status = SessionStatus.ready ∧
      (startedSession sid kid kt caps).isActive = true) ∧
    (∀ (sid r : String) (i : Nat) (k : KernelSession),
      s.kernelSessions[i]? = some k → k.sessionId = sid →
      (applyEvent s (.kernelSessionTerminated sid r)).kernelSessions[i]? =
        some { k with status := .terminated, isActive := false }) ∧
    (∀ (e : Event) (i : Nat) (k : KernelSession), s.kernelSessions[i]? = some k →
      k.status = SessionStatus.terminated → k.isActive = false →
      (applyEvent s e).kernelSessions[i]? = some k) := by
  refine ⟨fun sid kid kt caps => ⟨rfl, rfl, rfl⟩, ?_, ?_⟩
  · intro sid r i k hk hsid
    simp [applyEvent, updateWhere_getElem?, hk, hsid]
  · intro e i k hk hterm hact
    have hi : i < s.kernelSessions.length := (List.getElem?_eq_some_iff.mp hk).1
    cases e <;>
      simp [applyEvent, updateWhere_getElem?, hk, hterm,
        List.getElem?_append_left hi]
    case kernelSessionTerminated sid r =>
      intro _
      cases k
      simp_all

/-- A log fragment mirroring the session-management tests: a session is
started, heartbeats as busy, and is terminated on shutdown. -/
def c6Log : List Event :=
  [.kernelSessionStarted "session-1" "kernel-1" "python3"
      { canExecuteCode := true, canExecuteSql := false, canExecuteAi := false },
   .kernelSessionHeartbeat "session-1" .busy 5,
   .kernelSessionTerminated "session-1" "shutdown"]

/-- The terminated session row produced by `c6Log`. -/
def c6Session : KernelSession :=
  { sessionId := "session-1", kernelId := "kernel-1", kernelType := "python3",
    capabilities :=
      { canExecuteCode := true, canExecuteSql := false, canExecuteAi := false },
    status := .terminated, isActive := false, lastHeartbeatAt := some 5 }

theorem C6_session_lifecycle_witness :
    ((replay c6Log).kernelSessions[0]? = some c6Session) ∧
    ((applyEvent (replay c6Log)
        (.kernelSessionHeartbeat "session-1" .busy 9)).kernelSessions[0]? =
      some c6Session) :=
  ⟨by decide,
    (C6_session_lifecycle (replay c6Log)).2.2
      (.kernelSessionHeartbeat "session-1" .busy 9) 0 c6Session
      (by decide) (by decide) (by decide)⟩

/-- Modelled from the spec: the capability a queue entry requires from a
session, by the cell's type (section 4.3: `code → canExecuteCode`,
`sql → canExecuteSql`, `ai → canExecuteAi`; markdown cells are never
executed). -/
def capabilityMatches (ct : CellType) (caps : Capabilities) : Bool :=
  match ct with
  | .code => caps.canExecuteCode
  | .sql => caps.canExecuteSql
  | .ai => caps.canExecuteAi
  | .markdown => false

/-- A session that may be offered work: `ready` and active
(spec section 4.3). -/
def sessionReady (k : KernelSession) : Bool :=
  k.isActive && k.status == SessionStatus.ready

/-- Modelled from the spec: a pending entry is eligible when its cell's
required capability is satisfied by at least one ready, active session
(section 4.3). -/
def capabilityEligible (s : State) (en : QueueEntry) : Bool :=
  en.status == QueueStatus.pending &&
    match s.cells.find? (fun c => c.id == en.cellId) with
    | some c => s.kernelSessions.any fun k =>
        sessionReady k && capabilityMatches c.cellType k.capabilities
    | none => false

/-- Modelled from the spec: pick the entry with the highest priority, ties
broken by earliest commit order — the scan keeps the current entry unless a
later one is strictly better (section 4.3). -/
def pickBest : List QueueEntry → Option QueueEntry
  | [] => none
  | en :: rest =>
      match pickBest rest with
      | none => some en
      | some b => if b.priority > en.priority then some b else some en

/-- Modelled from the spec: the scheduler selects among the eligible pending
entries of the queue, which is held in commit order (section 4.3). -/
def schedule (s : State) : Option QueueEntry :=
  pickBest (s.executionQueue.filter (capabilityEligible s))

/-- `pickBest` never returns `none` on a nonempty list. -/
theorem pickBest_eq_none : ∀ {l : List QueueEntry},
    pickBest l = none ↔ l = []
  | [] => by simp [pickBest]
  | en :: rest => by
      simp only [pickBest]
      cases pickBest rest with
      | none => simp
      | some b =>
          by_cases hp : b.priority > en.priority <;> simp [hp]

/-- The scheduled entry comes from the list. -/
theorem pickBest_mem : ∀ {l : List QueueEntry} {b : QueueEntry},
    pickBest l = some b → b ∈ l
  | [], b, h => by simp [pickBest] at h
  | en :: rest, b, h => by
      simp only [pickBest] at h
      cases hr : pickBest rest with
      | none =>
          simp only [hr] at h
          simp only [Option.some.injEq] at h
          simp [h]
      | some b2 =>
          simp only [hr] at h
          by_cases hp : b2.priority > en.priority
          · rw [if_pos hp] at h
            simp only [Option.some.injEq] at h
            exact List.mem_cons_of_mem _ (h ▸ pickBest_mem hr)
          · rw [if_neg hp] at h
            simp only [Option.some.injEq] at h
            simp [h]

/-- The scheduled entry has maximal priority. -/
theorem pickBest_max : ∀ {l : List QueueEntry} {b : QueueEntry},
    pickBest l = some b → ∀ en ∈ l, en.priority ≤ b.priority
  | [], b, h => by simp [pickBest] at h
  | en :: rest, b, h => by
      simp only [pickBest] at h
      cases hr : pickBest rest with
      | none =>
          simp only [hr] at h
          simp only [Option.some.injEq] at h
          have : rest = [] := pickBest_eq_none.mp hr
          subst this
          simp [← h]
      | some b2 =>
          simp only [hr] at h
          by_cases hp : b2.priority > en.priority
          · rw [if_pos hp] at h
            injection h with h
            subst h
            intro x hx
            rcases List.mem_cons.mp hx with rfl | hx
            · exact le_of_lt hp
            · exact pickBest_max hr x hx
          · rw [if_neg hp] at h
            injection h with h
            subst h
            intro x hx
            rcases List.mem_cons.mp hx with rfl | hx
            · exact le_refl _
            · exact le_trans (pickBest_max hr x hx) (le_of_not_lt hp)

/-- Among entries of equal (maximal) priority, the earliest in commit order
is scheduled: everything before the scheduled entry has strictly lower
priority. -/
theorem pickBest_first : ∀ {l : List QueueEntry} {b : QueueEntry},
    pickBest l = some b →
    ∃ l1 l2, l = l1 ++ b :: l2 ∧ ∀ en ∈ l1, en.priority < b.priority
  | [], b, h => by simp [pickBest] at h
  | en :: rest, b, h => by
      simp only [pickBest] at h
      cases hr : pickBest rest with
      | none =>
          simp only [hr] at h
          simp only [Option.some.injEq] at h
          exact ⟨[], rest, by simp [h], by simp⟩
      | some b2 =>
          simp only [hr] at h
          by_cases hp : b2.priority > en.priority
          · rw [if_pos hp] at h
            injection h with h
            subst h
            obtain ⟨l1, l2, hl, hlt⟩ := pickBest_first hr
            refine ⟨en :: l1, l2, by simp [hl], ?_⟩
            intro x hx
            rcases List.mem_cons.mp hx with rfl | hx
            · exact hp
            · exact hlt x hx
          · rw [if_neg hp] at h
            injection h with h
            subst h
            exact ⟨[], rest, rfl, by simp⟩

/-- C4: the scheduler selects, among the pending entries whose required
capability is satisfied by a ready active session, an entry of maximal
integer priority, and among entries of equal priority the earliest in
queue/commit order (every eligible entry committed before it has strictly
lower priority). -/
theorem C4_scheduler_priority (s : State) (b : QueueEntry)
    (h : schedule s = some b) :
    capabilityEligible s b = true ∧ b ∈ s.executionQueue ∧
    (∀ en ∈ s.executionQueue, capabilityEligible s en = true →
      en.priority ≤ b.priority) ∧
    (∃ l1 l2, s.executionQueue.filter (capabilityEligible s) = l1 ++ b :: l2 ∧
      ∀ en ∈ l1, en.priority < b.priority) := by
  have hmem := pickBest_mem h
  have hf := List.mem_filter.mp hmem
  refine ⟨hf.2, hf.1, ?_, pickBest_first h⟩
  intro en hen helig
  exact pickBest_max h en (List.mem_filter.mpr ⟨hen, helig⟩)

/-- A log fragment mirroring the `should handle execution assignment by
priority` test: one code-capable session, two code cells, a priority-1
request committed before a priority-10 request. -/
def c4Log : List Event :=
  [.kernelSessionStarted "s-1" "k-1" "python3"
      { canExecuteCode := true, canExecuteSql := false, canExecuteAi := false },
   .cellCreated "cell-1" .code 0 "user-123",
   .cellCreated "cell-2" .code 1 "user-123",
   .executionRequested "low-priority-queue" "cell-1" 1 "user-123" 1,
   .executionRequested "high-priority-queue" "cell-2" 1 "user-123" 10]

/-- The high-priority entry of `c4Log`, which the scheduler must pick. -/
def c4High : QueueEntry :=
  { queueId := "high-priority-queue", cellId := "cell-2",
    executionCount := 1, requestedBy := "user-123", priority := 10,
    status := .pending, assignedKernelSession := none }

theorem C4_scheduler_priority_witness :
    schedule (replay c4Log) = some c4High ∧
    (capabilityEligible (replay c4Log) c4High = true ∧
      c4High ∈ (replay c4Log).executionQueue ∧
      (∀ en ∈ (replay c4Log).executionQueue,
        capabilityEligible (replay c4Log) en = true →
          en.priority ≤ c4High.priority) ∧
      (∃ l1 l2,
        (replay c4Log).executionQueue.filter (capabilityEligible (replay c4Log)) =
          l1 ++ c4High :: l2 ∧
        ∀ en ∈ l1, en.priority < c4High.priority)) :=
  ⟨by decide, C4_scheduler_priority (replay c4Log) c4High (by decide)⟩

/-- A fresh output to be committed by a worker run. -/
structure NewOutput where
  id : String
  outputType : OutputType
  data : OutputPayload
  position : Int
deriving DecidableEq, Repr

/-- The `outputs` row created by a `CellOutputAdded` for cell `c`. -/
def outputRow (c : String) (o : NewOutput) : Output :=
  { id := o.id, cellId := c, outputType := o.outputType, data := o.data,
    position := o.position }

/-- Translated from the `executeCell` callback in `Cell.tsx`: the commit
sequence of the client execution path — clear previous outputs first, then
request execution with a bumped execution count at priority 1. -/
def executeCellCommits (cellId queueId : String) (prevCount : Nat) :
    List Event :=
  [.cellOutputsCleared cellId "current-user",
   .executionRequested queueId cellId (prevCount + 1) "current-user" 1]

/-- Translated from the `executeAiPrompt` callback in `AiCell`: the commit
sequence of the AI execution path, identical in shape to `executeCellCommits`. -/
def executeAiPromptCommits (cellId queueId : String) (prevCount : Nat) :
    List Event :=
  [.cellOutputsCleared cellId "current-user",
   .executionRequested queueId cellId (prevCount + 1) "current-user" 1]

/-- Modelled from the spec: the worker output path for a re-run
(section 4.5, and the `should clear outputs before execution` test) — the
worker commits `CellOutputsCleared` before emitting the run's fresh
`CellOutputAdded` events. -/
def workerRunCommits (cellId clearedBy : String) (outs : List NewOutput) :
    List Event :=
  Event.cellOutputsCleared cellId clearedBy ::
    outs.map (fun o => .cellOutputAdded o.id cellId o.outputType o.data o.position)

/-- Folding a batch of `CellOutputAdded` events appends exactly the
corresponding rows. -/
theorem applyEvents_outputAdds (c : String) :
    ∀ (outs : List NewOutput) (s : State),
    (applyEvents s (outs.map
        (fun o => Event.cellOutputAdded o.id c o.outputType o.data o.position))).outputs =
      s.outputs ++ outs.map (outputRow c)
  | [], s => by simp [applyEvents]
  | o :: t, s => by
      have ih := applyEvents_outputAdds c t (applyEvent s
        (.cellOutputAdded o.id c o.outputType o.data o.position))
      simp only [List.map_cons, applyEvents, List.foldl_cons] at ih ⊢
      rw [ih]
      simp [applyEvent, outputRow]

/-- Rows built by `outputRow c` all belong to cell `c`. -/
theorem filter_outputRows (c : String) (outs : List NewOutput) :
    (outs.map (outputRow c)).filter (fun o => o.cellId == c) =
      outs.map (outputRow c) := by
  induction outs with
  | nil => rfl
  | cons o t ih => simp [outputRow, List.filter_cons, ih]

/-- C7: `CellOutputsCleared` bulk-deletes every output row of its cell —
afterwards the cell has zero output rows — and the execution paths commit
the clear before any fresh `CellOutputAdded` of a re-run (this is literally
the first commit of `executeCellCommits`, `executeAiPromptCommits` and
`workerRunCommits`), so after a worker re-run the cell's output rows are
exactly the new run's rows: no stale output coexists with them. -/
theorem C7_outputs_cleared_before_rerun (s : State) (c by2 : String)
    (outs : List NewOutput) (q : String) (pc : Nat) :
    ((applyEvent s (.cellOutputsCleared c by2)).outputs.filter
        (fun o => o.cellId == c) = []) ∧
    ((executeCellCommits c q pc).head? =
      some (.cellOutputsCleared c "current-user")) ∧
    ((executeAiPromptCommits c q pc).head? =
      some (.cellOutputsCleared c "current-user")) ∧
    ((workerRunCommits c by2 outs).head? =
      some (.cellOutputsCleared c by2)) ∧
    ((applyEvents s (workerRunCommits c by2 outs)).outputs.filter
        (fun o => o.cellId == c) = outs.map (outputRow c)) := by
  have hclear : (applyEvent s (.cellOutputsCleared c by2)).outputs.filter
      (fun o => o.cellId == c) = [] := by
    rw [List.filter_eq_nil_iff]
    intro o ho
    have h2 : ¬ o.cellId = c := by
      simp only [applyEvent, List.mem_filter, Bool.not_eq_true'] at ho
      simpa using ho.2
    simpa using h2
  refine ⟨hclear, rfl, rfl, rfl, ?_⟩
  simp only [workerRunCommits, applyEvents, List.foldl_cons]
  have hadds := applyEvents_outputAdds c outs
    (applyEvent s (.cellOutputsCleared c by2))
  simp only [applyEvents] at hadds
  rw [hadds, List.filter_append, filter_outputRows]
  rw [hclear]
  simp

/-- Translated from the `executeCell` error handler in `Cell.tsx`: the
`CellOutputAdded` event committed when queueing an execution fails. -/
def cellExecErrorOutput (id cellId evalue : String) : Event :=
  .cellOutputAdded id cellId .error
    (.errorData "LiveStoreError" evalue
      ["Error occurred while emitting LiveStore event"]) 0

/-- Translated from the `executeAiPrompt` error handler in `AiCell`: the
`CellOutputAdded` event committed when queueing an AI execution fails. -/
def aiExecErrorOutput (id cellId evalue : String) : Event :=
  .cellOutputAdded id cellId .error
    (.errorData "AIExecutionError" evalue
      ["Error occurred while emitting LiveStore event"]) 0

/-- C8: execution failures are reported as data.  A failed completion marks
the queue entry `failed` in place; the error outputs committed by the
client error handlers are `error`-typed rows whose data carries
`{ename, evalue, traceback}`; and after any such commits the system still
accepts a re-run request for the same cell — an `ExecutionRequested`
always appends a fresh pending entry. -/
theorem C8_failure_reported_as_data (s : State) (q c : String) (ca d : Nat)
    (i : Nat) (en : QueueEntry) (hi : s.executionQueue[i]? = some en)
    (hq : en.queueId = q) (hnt : statusRank en.status < 3) :
    ((applyEvent s (.executionCompleted q c "error" ca d)).executionQueue[i]? =
      some { en with status := .failed }) ∧
    (∀ (s2 : State) (oid ev : String),
      (applyEvent s2 (cellExecErrorOutput oid c ev)).outputs =
        s2.outputs ++
          [{ id := oid, cellId := c, outputType := .error,
             data := .errorData "LiveStoreError" ev
               ["Error occurred while emitting LiveStore event"],
             position := 0 }] ∧
      (applyEvent s2 (aiExecErrorOutput oid c ev)).outputs =
        s2.outputs ++
          [{ id := oid, cellId := c, outputType := .error,
             data := .errorData "AIExecutionError" ev
               ["Error occurred while emitting LiveStore event"],
             position := 0 }] ∧
      hasErrorFields (OutputPayload.errorData "LiveStoreError" ev
        ["Error occurred while emitting LiveStore event"]) = true) ∧
    (∀ (s2 : State) (q2 : String) (n : Nat) (u : String) (p : Int),
      (applyEvent s2 (.executionRequested q2 c n u p)).executionQueue.getLast? =
        some (requestedEntry q2 c n u p) ∧
      (requestedEntry q2 c n u p).status = QueueStatus.pending) := by
  refine ⟨?_, fun s2 oid ev => ⟨rfl, rfl, rfl⟩, fun s2 q2 n u p => ⟨?_, rfl⟩⟩
  · have hss : (("error" : String) == "success") = false := by decide
    simp [applyEvent, updateWhere_getElem?, hi, hq, hnt, hss]
  · simp [applyEvent, requestedEntry, List.getLast?_concat]

/-- A log fragment with a running execution about to fail, as in the error
scenarios of the test suite. -/
def c8Log : List Event :=
  [.kernelSessionStarted "s-1" "k-1" "python3"
      { canExecuteCode := true, canExecuteSql := false, canExecuteAi := false },
   .cellCreated "cell-err" .code 0 "user-123",
   .executionRequested "q-err" "cell-err" 1 "user-123" 1,
   .executionAssigned "q-err" "s-1",
   .executionStarted "q-err" "cell-err" "s-1" 0]

/-- The running queue entry produced by `c8Log`. -/
def c8Entry : QueueEntry :=
  { queueId := "q-err", cellId := "cell-err", executionCount := 1,
    requestedBy := "user-123", priority := 1, status := .running,
    assignedKernelSession := some "s-1" }

theorem C8_failure_reported_as_data_witness :
    ((replay c8Log).executionQueue[0]? = some c8Entry) ∧
    ((applyEvent (replay c8Log)
        (.executionCompleted "q-err" "cell-err" "error" 0 7)).executionQueue[0]? =
      some { c8Entry with status := .failed }) :=
  ⟨by decide,
    (C8_failure_reported_as_data (replay c8Log) "q-err" "cell-err" 0 7 0
      c8Entry (by decide) (by decide) (by decide)).1⟩

/-- JS member access on a string-keyed object: `none` models `undefined`. -/
def jsGet (data : List (String × JsVal)) (k : String) : Option JsVal :=
  (data.find? (fun kv => kv.1 == k)).map (fun kv => kv.2)

/-- Translated from `RichOutput.tsx`: the fixed media-type preference
order of `getPreferredMediaType`. -/
def preferenceOrder : List String :=
  ["application/vnd.jupyter.widget-view+json",
   "application/vnd.anode.aitool+json",
   "text/markdown",
   "text/html",
   "image/png",
   "image/jpeg",
   "image/svg+xml",
   "image/svg",
   "application/json",
   "text/plain"]

/-- Translated from `RichOutput.tsx`: a media type is usable when
`outputData[mediaType]` is neither `undefined` nor `null`. -/
def displayable (data : List (String × JsVal)) (m : String) : Bool :=
  match jsGet data m with
  | some v => !(v == JsVal.null)
  | none => false

/-- Translated from `getPreferredMediaType` in `RichOutput.tsx`: the first
media type of the preference order that is present. -/
def getPreferredMediaType (data : List (String × JsVal)) : Option String :=
  preferenceOrder.find? (displayable data)

/-- Rendering outcome of the `RichOutput` component, abstracted from the
returned JSX: stream outputs render the ANSI stream view, a found media
type renders its viewer, and otherwise the `No displayable content`
placeholder is shown. -/
inductive Rendered where
  | streamOut
  | placeholderNoContent
  | mediaView (m : String)
deriving DecidableEq, Repr

/-- Translated from the `RichOutput` component body in `RichOutput.tsx`. -/
def renderRichOutput (outputType : OutputType)
    (data : List (String × JsVal)) : Rendered :=
  if outputType == OutputType.stream then .streamOut
  else
    match getPreferredMediaType data with
    | none => .placeholderNoContent
    | some m => .mediaView m

/-- C9: for every non-stream output data map, `RichOutput` renders the first
media type of the fixed preference order whose value is neither `undefined`
nor `null` — whatever it renders is displayable and everything earlier in
the order is not — and when no media type of the order is present it
renders the `No displayable content` placeholder rather than failing. -/
theorem C9_rich_output_preference (outputType : OutputType)
    (data : List (String × JsVal)) (hs : outputType ≠ OutputType.stream) :
    (∀ m, renderRichOutput outputType data = .mediaView m →
      m ∈ preferenceOrder ∧ displayable data m = true ∧
      ∃ l1 l2, preferenceOrder = l1 ++ m :: l2 ∧
        ∀ m2 ∈ l1, displayable data m2 = false) ∧
    (renderRichOutput outputType data = .placeholderNoContent ↔
      ∀ m ∈ preferenceOrder, displayable data m = false) := by
  have hb : (outputType == OutputType.stream) = false := by
    simpa using hs
  have hr : renderRichOutput outputType data =
      (match getPreferredMediaType data with
        | none => Rendered.placeholderNoContent
        | some m => Rendered.mediaView m) := by
    simp [renderRichOutput, hb]
  cases hfind : getPreferredMediaType data with
  | none =>
      rw [hfind] at hr
      have hfind2 : preferenceOrder.find? (displayable data) = none := hfind
      constructor
      · intro m hm
        rw [hr] at hm
        exact absurd hm (by simp)
      · rw [hr]
        simp only [true_iff]
        intro m hm
        have := List.find?_eq_none.mp hfind2 m hm
        simpa using this
  | some m2 =>
      rw [hfind] at hr
      have hfind2 : preferenceOrder.find? (displayable data) = some m2 := hfind
      constructor
      · intro m hm
        rw [hr] at hm
        simp only [Rendered.mediaView.injEq] at hm
        subst hm
        obtain ⟨hp, l1, l2, hsplit, hfalse⟩ := List.find?_eq_some.mp hfind2
        refine ⟨List.mem_of_find?_eq_some hfind2, hp, l1, l2, hsplit, ?_⟩
        intro m3 hm3
        simpa using hfalse m3 hm3
      · rw [hr]
        constructor
        · intro h
          exact absurd h (by simp)
        · intro hall
          have hdisp := List.find?_some hfind2
          have hm2 := hall m2 (List.mem_of_find?_eq_some hfind2)
          rw [hm2] at hdisp
          exact absurd hdisp (by simp)

/-- An output data map with a `null` markdown entry, an HTML entry and a
plain-text fallback, as produced by rich execute results. -/
def c9Data : List (String × JsVal) :=
  [("text/markdown", JsVal.null),
   ("text/html", JsVal.str "<div>...</div>"),
   ("text/plain", JsVal.str "   a  b")]

theorem C9_rich_output_preference_witness :
    renderRichOutput OutputType.execute_result c9Data =
      Rendered.mediaView "text/html" ∧
    ((∀ m, renderRichOutput OutputType.execute_result c9Data =
        Rendered.mediaView m →
      m ∈ preferenceOrder ∧ displayable c9Data m = true ∧
      ∃ l1 l2, preferenceOrder = l1 ++ m :: l2 ∧
        ∀ m2 ∈ l1, displayable c9Data m2 = false) ∧
     (renderRichOutput OutputType.execute_result c9Data =
        Rendered.placeholderNoContent ↔
      ∀ m ∈ preferenceOrder, displayable c9Data m = false)) :=
  ⟨by decide,
    C9_rich_output_preference OutputType.execute_result c9Data (by decide)⟩

/-- The frontend widget model of `LiveStoreAnywidgetModel`: its current
state object and its set of dirty fields (keys set since the last save). -/
structure AnywidgetModelState where
  state : List (String × JsVal)
  dirtyFields : List String
deriving DecidableEq, Repr

/-- The `anywidgetModelStateChanged` event committed by `save_changes`. -/
structure AnywidgetStateChangedEvent where
  modelId : String
  state : List (String × JsVal)
  changedBy : String
deriving DecidableEq, Repr

/-- JS object write `this.state[key] = value`: overwrite an existing key in
place, otherwise add it. -/
def setStateKey (st : List (String × JsVal)) (k : String) (v : JsVal) :
    List (String × JsVal) :=
  if st.any (fun kv => kv.1 == k) then
    st.map (fun kv => if kv.1 == k then (k, v) else kv)
  else st ++ [(k, v)]

/-- `Set.add` on the dirty-field set (a set, held as a duplicate-free
insertion list). -/
def addDirty (df : List String) (k : String) : List String :=
  if k ∈ df then df else df ++ [k]

/-- Translated from `save_changes` in `LiveStoreAnywidgetModel`: when the
dirty-field set is empty, return without committing; otherwise commit one
`anywidgetModelStateChanged` event whose state holds exactly the dirty
fields and clear the dirty set.  The returned option is the committed
event, if any. -/
def save_changes (modelId : String) (m : AnywidgetModelState) :
    AnywidgetModelState × Option AnywidgetStateChangedEvent :=
  if m.dirtyFields.isEmpty then (m, none)
  else
    ({ m with dirtyFields := [] },
     some { modelId := modelId,
            state := m.dirtyFields.map
              (fun k => (k, (jsGet m.state k).getD JsVal.null)),
            changedBy := "frontend" })

/-- Translated from `set` in `LiveStoreAnywidgetModel`: write the value,
mark the field dirty, and auto-save. -/
def setField (modelId : String) (m : AnywidgetModelState) (k : String)
    (v : JsVal) : AnywidgetModelState × Option AnywidgetStateChangedEvent :=
  save_changes modelId
    { state := setStateKey m.state k v,
      dirtyFields := addDirty m.dirtyFields k }

/-- C10: `save_changes` commits no event when the dirty-field set is empty
(and leaves the model untouched); otherwise it commits exactly one
`anywidgetModelStateChanged` event whose state payload holds a key exactly
when that key is dirty — untouched keys never appear — and clears the
dirty set, so a second `save_changes` immediately after commits nothing. -/
theorem C10_save_changes_dirty_fields (modelId : String)
    (m : AnywidgetModelState) :
    (m.dirtyFields = [] → save_changes modelId m = (m, none)) ∧
    (∀ m2 evt, save_changes modelId m = (m2, some evt) →
      (∀ k, (∃ v, (k, v) ∈ evt.state) ↔ k ∈ m.dirtyFields) ∧
      m2.dirtyFields = [] ∧
      save_changes modelId m2 = (m2, none)) := by
  constructor
  · intro h
    simp [save_changes, h]
  · intro m2 evt hsc
    by_cases he : m.dirtyFields.isEmpty
    · rw [save_changes, if_pos he] at hsc
      exact absurd (congrArg Prod.snd hsc) (by simp)
    · rw [save_changes, if_neg he] at hsc
      injection hsc with hm2 hevt
      injection hevt with hevt
      refine ⟨?_, ?_, ?_⟩
      · intro k
        rw [← hevt]
        simp only [List.mem_map]
        constructor
        · rintro ⟨v, k2, hk2, hkv⟩
          injection hkv with h1 h2
          exact h1 ▸ hk2
        · intro hk
          exact ⟨(jsGet m.state k).getD JsVal.null, k, hk, rfl⟩
      · rw [← hm2]
      · rw [← hm2]
        simp [save_changes]

/-- A model with one dirty field `value` and one clean field `label`, as a
widget would hold after a single `set`. -/
def c10Dirty : AnywidgetModelState :=
  { state := [("value", JsVal.num 7), ("label", JsVal.str "count")],
    dirtyFields := ["value"] }

/-- `c10Dirty` after a save: same state, no dirty fields. -/
def c10Clean : AnywidgetModelState :=
  { state := [("value", JsVal.num 7), ("label", JsVal.str "count")],
    dirtyFields := [] }

/-- The single event committed by saving `c10Dirty`. -/
def c10Evt : AnywidgetStateChangedEvent :=
  { modelId := "model-1", state := [("value", JsVal.num 7)],
    changedBy := "frontend" }

theorem C10_save_changes_dirty_fields_witness :
    save_changes "model-1" c10Dirty = (c10Clean, some c10Evt) ∧
    ((∀ k, (∃ v, (k, v) ∈ c10Evt.state) ↔ k ∈ c10Dirty.dirtyFields) ∧
      c10Clean.dirtyFields = [] ∧
      save_changes "model-1" c10Clean = (c10Clean, none)) :=
  ⟨by decide,
    (C10_save_changes_dirty_fields "model-1" c10Dirty).2 c10Clean c10Evt
      (by decide)⟩

end Anode

